import Mathlib

/-!
Shallow embedding of the keybot token-ledger core (src/src/modules/db.rs and
the config-cache writes in src/src/modules/commands.rs).

The SQLite tables are modelled as lists of rows in table-scan order; the
sqlx queries become pure functions on a `Db` record.  Wall-clock timestamps
(`datetime('now', 'localtime')`) are passed in as an abstract `now : Nat`
parameter.  Commit / execute failures of the storage engine are modelled by
a boolean oracle parameter: `true` means the commit succeeds, `false` means
it fails and the transaction's writes are rolled back (sqlx rolls a
transaction back when it is dropped without commit).
-/

namespace Keybot

/-- Row of the `keys` table (db.rs, CREATE TABLE keys). -/
structure KeyRow where
  id : Nat
  key_val : String
  claimed : Bool
  user_claim : Option Nat
  claimed_at : Option Nat
  added_at : Nat
  claim_round : Option Int
deriving Repr, DecidableEq

/-- Row of the `users` table (db.rs, CREATE TABLE users). -/
structure UserRow where
  id : Nat
  username : String
deriving Repr, DecidableEq

/-- Row of the `giveaway_rounds` table (db.rs, CREATE TABLE giveaway_rounds). -/
structure RoundRow where
  round_id : Int
  status : String
deriving Repr, DecidableEq

/-- The durable SQLite state: the four tables, plus the AUTOINCREMENT
counters for `keys.id` and `users.id`. -/
structure Db where
  keys : List KeyRow
  users : List UserRow
  rounds : List RoundRow
  config : List (String × String)
  nextKeyId : Nat
  nextUserId : Nat
deriving Repr, DecidableEq

/-- The empty database produced by `add_tables` on a fresh file. -/
def emptyDb : Db := ⟨[], [], [], [], 1, 1⟩

/-- Errors surfaced by the db-layer functions.  Each constructor stands for
one concrete error of the source. -/
inductive DbError where
  /-- eyre error "You have already claimed a key for this round."
  (db.rs claim_key_with_user). -/
  | alreadyClaimedThisRound
  /-- eyre error "No keys available" (db.rs claim_key_with_user). -/
  | poolExhausted
  /-- sqlx RowNotFound: `fetch_one` on a query that returned no rows
  (db.rs give_key_unchecked). -/
  | rowNotFound
  /-- any storage-engine failure surfaced through `?` (failed commit or
  failed execute), injected by the oracle parameter. -/
  | storage
deriving Repr, DecidableEq

/-- Does a row for `user` exist in the `users` table? -/
def userExists (db : Db) (user : String) : Bool :=
  db.users.any fun u => u.username == user

/-- `INSERT OR IGNORE INTO users (username) VALUES (?)` — the lazy user
upsert used by both claim entry points. -/
def insertOrIgnoreUser (db : Db) (user : String) : Db :=
  if userExists db user then db
  else { db with users := db.users ++ [⟨db.nextUserId, user⟩],
                 nextUserId := db.nextUserId + 1 }

/-- Scalar subquery `(select id from users where username = ?)`. -/
def lookupUserId (db : Db) (user : String) : Option Nat :=
  (db.users.find? fun u => u.username == user).map (·.id)

/-- Scalar subquery
`(select round_id from giveaway_rounds where status = 'active')`;
NULL when no round is active. -/
def activeRoundId (db : Db) : Option Int :=
  ((db.rounds.filter fun r => r.status == "active").head?).map (·.round_id)

/-- `SELECT COUNT(*) FROM keys WHERE claimed = FALSE` (db.rs
remaining_unclaimed). -/
def remaining_unclaimed (db : Db) : Nat :=
  (db.keys.filter fun k => !k.claimed).length

/-- The NOT EXISTS subquery of claim_key_with_user's SELECT: does `user`
hold a claimed key whose claim round currently has status 'active'? -/
def userBlockedInActiveRound (db : Db) (user : String) : Bool :=
  db.keys.any fun k2 =>
    k2.claimed &&
    (db.users.any fun u => k2.user_claim == some u.id && u.username == user) &&
    (db.rounds.any fun gr => k2.claim_round == some gr.round_id && gr.status == "active")

/-- The SELECT of claim_key_with_user (db.rs lines 142-160): first key with
`claimed = FALSE` for which the per-user active-round NOT EXISTS holds. -/
def selectClaimKey (db : Db) (user : String) : Option KeyRow :=
  db.keys.find? fun k => !k.claimed && !userBlockedInActiveRound db user

/-- The bind UPDATE shared by both claim entry points (db.rs lines 113-121
and 172-180):
`UPDATE keys SET claimed = TRUE, user_claim = (...), claimed_at = ...,
claim_round = (...) WHERE key_val = ?`.
Note the WHERE clause matches on `key_val` alone — there is no
`claimed = FALSE` guard. -/
def bindUpdate (db : Db) (user : String) (keyVal : String) (now : Nat) : Db :=
  { db with keys := db.keys.map fun k =>
      if k.key_val == keyVal then
        { k with claimed := true,
                 user_claim := lookupUserId db user,
                 claimed_at := some now,
                 claim_round := activeRoundId db }
      else k }

/-- claim_key_with_user (db.rs lines 129-185).  The user upsert runs on the
pool before the transaction begins, so it persists even when the rest
fails.  Returns the resulting durable state and the call's result. -/
def claim_key_with_user (db : Db) (user : String) (now : Nat) (commitOk : Bool) :
    Db × Except DbError String :=
  match selectClaimKey (insertOrIgnoreUser db user) user with
  | none =>
      if 0 < remaining_unclaimed (insertOrIgnoreUser db user) then
        (insertOrIgnoreUser db user, .error .alreadyClaimedThisRound)
      else
        (insertOrIgnoreUser db user, .error .poolExhausted)
  | some k =>
      if commitOk then
        (bindUpdate (insertOrIgnoreUser db user) user k.key_val now, .ok k.key_val)
      else
        (insertOrIgnoreUser db user, .error .storage)

/-- give_key_unchecked (db.rs lines 93-126).  Here the user upsert runs
inside the transaction; when `fetch_one` finds no row (or the commit
fails), the transaction is dropped and every write — the user upsert
included — is rolled back. -/
def give_key_unchecked (db : Db) (user : String) (now : Nat) (commitOk : Bool) :
    Db × Except DbError String :=
  match (insertOrIgnoreUser db user).keys.find? (fun k => !k.claimed) with
  | none => (db, .error .rowNotFound)
  | some k =>
      if commitOk then
        (bindUpdate (insertOrIgnoreUser db user) user k.key_val now, .ok k.key_val)
      else
        (db, .error .storage)

/-- `UPDATE giveaway_rounds SET status = 'completed' WHERE status = 'active'`. -/
def completeActive (rs : List RoundRow) : List RoundRow :=
  rs.map fun r => if r.status == "active" then { r with status := "completed" } else r

/-- `INSERT OR REPLACE INTO giveaway_rounds (round_id, status) VALUES (?, 'active')`:
replace the row with this primary key when present, insert it otherwise. -/
def insertOrReplaceRound (rs : List RoundRow) (round : Int) : List RoundRow :=
  if rs.any (fun r => r.round_id == round) then
    rs.map fun r => if r.round_id == round then ⟨round, "active"⟩ else r
  else rs ++ [⟨round, "active"⟩]

/-- Replace-or-append upsert on a string key/value map; used both for the
config table's INSERT OR REPLACE and for the in-memory HashMap insert. -/
def upsertKV (cfg : List (String × String)) (k v : String) : List (String × String) :=
  if cfg.any (fun p => p.1 == k) then
    cfg.map fun p => if p.1 == k then (k, v) else p
  else cfg ++ [(k, v)]

/-- set_round_db (db.rs lines 200-231): inside one transaction, complete
every active round, then insert-or-replace `(round, 'active')`; only on
commit success is the in-memory config map's "claim_round" refreshed. -/
def set_round_db (db : Db) (round : Int) (config : List (String × String))
    (commitOk : Bool) : Db × List (String × String) × Except DbError Unit :=
  if commitOk then
    ({ db with rounds := insertOrReplaceRound (completeActive db.rounds) round },
     upsertKV config "claim_round" (toString round), .ok ())
  else (db, config, .error .storage)

/-- `SELECT round_id FROM giveaway_rounds WHERE status = 'active'` with
fetch_optional (db.rs get_round). -/
def get_round (db : Db) : Option Int :=
  activeRoundId db

/-- set_config_val (db.rs lines 248-260):
`INSERT OR REPLACE INTO config (key, value) VALUES (?, ?)`. -/
def set_config_val (db : Db) (key value : String) : Db :=
  { db with config := upsertKV db.config key value }

/-- set_key_role (commands.rs lines 51-67): the command locks the config
mutex, inserts "role_id" into the in-memory map FIRST, and only then calls
set_config_val; a persistence failure propagates through `?` after the
cache was already mutated (the mutex guard is dropped on the early
return), so the cache keeps the new value. -/
def set_key_role (db : Db) (cache : List (String × String)) (roleId : String)
    (persistOk : Bool) : Db × List (String × String) × Except DbError Unit :=
  let cache1 := upsertKV cache "role_id" roleId
  if persistOk then (set_config_val db "role_id" roleId, cache1, .ok ())
  else (db, cache1, .error .storage)

/-- `INSERT OR IGNORE INTO keys (key_val) VALUES (?)` — one ingestion step
of read_beta_keys_file; a fresh row gets claimed = FALSE and the defaulted
added_at timestamp. -/
def insertOrIgnoreKey (db : Db) (v : String) (now : Nat) : Db :=
  if db.keys.any (fun k => k.key_val == v) then db
  else { db with keys := db.keys ++ [⟨db.nextKeyId, v, false, none, none, now, none⟩],
                 nextKeyId := db.nextKeyId + 1 }

/-- read_beta_keys_file (db.rs lines 263-284): insert-or-ignore each line
of the key-source file in order. -/
def read_beta_keys_file (db : Db) (lines : List String) (now : Nat) : Db :=
  lines.foldl (fun d v => insertOrIgnoreKey d v now) db

/-- Key values present in the inventory. -/
def keyVals (db : Db) : List String :=
  db.keys.map (·.key_val)

/-- Number of rows of the rounds table whose status is 'active'. -/
def activeCount (rs : List RoundRow) : Nat :=
  (rs.filter fun r => r.status == "active").length

/-- The primary-key column of the rounds table. -/
def roundIds (rs : List RoundRow) : List Int :=
  rs.map (·.round_id)

/-- Run a sequence of set_round_db calls; each call carries its round
number and its commit oracle. -/
def runRounds (db : Db) (calls : List (Int × Bool)) : Db :=
  calls.foldl (fun d c => (set_round_db d c.1 [] c.2).1) db

/-- Is key row `k` bound to the user named `user` (its user_claim points at
a users row carrying that username)? -/
def boundTo (db : Db) (k : KeyRow) (user : String) : Bool :=
  db.users.any fun u => k.user_claim == some u.id && u.username == user

end Keybot

namespace Keybot

/-! Concrete example databases used by the witnesses and counterexamples. -/

/-- One key "K1" claimed by alice (user 1) in round 1, which is active. -/
def exClaimedDb : Db :=
  ⟨[⟨1, "K1", true, some 1, some 0, 0, some 1⟩], [⟨1, "alice"⟩],
   [⟨1, "active"⟩], [], 2, 2⟩

/-- Like exClaimedDb but with a second, unclaimed key "K2". -/
def exClaimedDb2 : Db :=
  ⟨[⟨1, "K1", true, some 1, some 0, 0, some 1⟩,
    ⟨2, "K2", false, none, none, 0, none⟩],
   [⟨1, "alice"⟩], [⟨1, "active"⟩], [], 3, 2⟩

/-- One unclaimed key "K1", round 1 active, no users yet. -/
def exFreshDb : Db :=
  ⟨[⟨1, "K1", false, none, none, 0, none⟩], [], [⟨1, "active"⟩], [], 2, 1⟩

/-- Two unclaimed keys, no rounds at all, no users. -/
def exNoRoundDb : Db :=
  ⟨[⟨1, "K1", false, none, none, 0, none⟩,
    ⟨2, "K2", false, none, none, 0, none⟩], [], [], [], 3, 1⟩

/-- exClaimedDb with a second user bob already present. -/
def exTwoUserDb : Db :=
  ⟨[⟨1, "K1", true, some 1, some 0, 0, some 1⟩],
   [⟨1, "alice"⟩, ⟨2, "bob"⟩], [⟨1, "active"⟩], [], 2, 3⟩

/-! Basic structural lemmas about the embedded operations. -/

theorem insertOrIgnoreUser_keys (db : Db) (user : String) :
    (insertOrIgnoreUser db user).keys = db.keys := by
  unfold insertOrIgnoreUser; split <;> rfl

theorem insertOrIgnoreUser_rounds (db : Db) (user : String) :
    (insertOrIgnoreUser db user).rounds = db.rounds := by
  unfold insertOrIgnoreUser; split <;> rfl

theorem bindUpdate_users (db : Db) (user keyVal : String) (now : Nat) :
    (bindUpdate db user keyVal now).users = db.users := rfl

theorem bindUpdate_rounds (db : Db) (user keyVal : String) (now : Nat) :
    (bindUpdate db user keyVal now).rounds = db.rounds := rfl

theorem remaining_unclaimed_insertOrIgnoreUser (db : Db) (user : String) :
    remaining_unclaimed (insertOrIgnoreUser db user) = remaining_unclaimed db := by
  unfold remaining_unclaimed; rw [insertOrIgnoreUser_keys]

theorem userExists_insertOrIgnoreUser (db : Db) (user : String) :
    userExists (insertOrIgnoreUser db user) user = true := by
  unfold insertOrIgnoreUser
  split
  · assumption
  · unfold userExists
    simp

theorem insertOrIgnoreUser_eq_self {db : Db} {user : String}
    (h : userExists db user = true) : insertOrIgnoreUser db user = db := by
  unfold insertOrIgnoreUser; simp [h]

theorem userExists_of_blocked {db : Db} {user : String}
    (h : userBlockedInActiveRound db user = true) : userExists db user = true := by
  unfold userBlockedInActiveRound at h
  simp only [List.any_eq_true, Bool.and_eq_true] at h
  obtain ⟨k2, -, ⟨-, u, hu1, -, hu3⟩, -⟩ := h
  unfold userExists
  simp only [List.any_eq_true]
  exact ⟨u, hu1, hu3⟩

theorem selectClaimKey_eq_none_of_blocked {db : Db} {user : String}
    (h : userBlockedInActiveRound db user = true) :
    selectClaimKey db user = none := by
  unfold selectClaimKey
  rw [List.find?_eq_none]
  intro k _
  simp [h]

theorem claim_of_select_none (db : Db) (user : String) (now : Nat) (c : Bool)
    (h : selectClaimKey (insertOrIgnoreUser db user) user = none) :
    claim_key_with_user db user now c =
      (insertOrIgnoreUser db user,
       .error (if 0 < remaining_unclaimed db then DbError.alreadyClaimedThisRound
               else DbError.poolExhausted)) := by
  unfold claim_key_with_user
  rw [h]
  dsimp only
  rw [remaining_unclaimed_insertOrIgnoreUser]
  split <;> rfl

theorem claim_of_select_some (db : Db) (user : String) (now : Nat) {k : KeyRow}
    (h : selectClaimKey (insertOrIgnoreUser db user) user = some k) :
    claim_key_with_user db user now true =
      (bindUpdate (insertOrIgnoreUser db user) user k.key_val now, .ok k.key_val) := by
  unfold claim_key_with_user
  rw [h]
  dsimp only
  rfl

end Keybot

namespace Keybot

/-- Claim C1 (amended): a user who has successfully claimed a token in the
currently active round never receives a second token from `claim`; the
call fails with AlreadyClaimedThisRound when unclaimed tokens remain and
with PoolExhausted when the pool is simultaneously exhausted. -/
theorem claim_blocked_always_errors (db : Db) (user : String) (now : Nat) (c : Bool)
    (h : userBlockedInActiveRound db user = true) :
    (claim_key_with_user db user now c).2 =
      .error (if 0 < remaining_unclaimed db then DbError.alreadyClaimedThisRound
              else DbError.poolExhausted) := by
  have he : insertOrIgnoreUser db user = db :=
    insertOrIgnoreUser_eq_self (userExists_of_blocked h)
  have hs : selectClaimKey (insertOrIgnoreUser db user) user = none := by
    rw [he]; exact selectClaimKey_eq_none_of_blocked h
  rw [claim_of_select_none db user now c hs]

/-- Claim C1 counterexample: with a one-key pool, alice successfully claims
"K1" in the active round; her next `claim` call while the round is still
active returns PoolExhausted ("No keys available"), not
AlreadyClaimedThisRound as the claim demands. -/
theorem claim_blocked_pool_exhausted_cex :
    (claim_key_with_user exFreshDb "alice" 1 true).2 = .ok "K1" ∧
    userBlockedInActiveRound (claim_key_with_user exFreshDb "alice" 1 true).1 "alice" = true ∧
    (claim_key_with_user (claim_key_with_user exFreshDb "alice" 1 true).1 "alice" 2 true).2
      = .error DbError.poolExhausted ∧
    DbError.poolExhausted ≠ DbError.alreadyClaimedThisRound :=
  ⟨rfl, rfl, rfl, by decide⟩

/-- Claim C1 witness: concrete blocked user with an unclaimed key left. -/
theorem claim_blocked_always_errors_witness :
    userBlockedInActiveRound exClaimedDb2 "alice" = true ∧
    (claim_key_with_user exClaimedDb2 "alice" 5 true).2 =
      .error (if 0 < remaining_unclaimed exClaimedDb2 then DbError.alreadyClaimedThisRound
              else DbError.poolExhausted) :=
  ⟨by decide, claim_blocked_always_errors exClaimedDb2 "alice" 5 true (by decide)⟩

/-- Claim C2: when the claim SELECT finds no eligible token, the call fails
with AlreadyClaimedThisRound if the total unclaimed count (ignoring the
per-user predicate) is positive and with PoolExhausted otherwise, and no
token is bound (the keys table is unchanged). -/
theorem claim_error_discrimination (db : Db) (user : String) (now : Nat) (c : Bool)
    (h : selectClaimKey (insertOrIgnoreUser db user) user = none) :
    (claim_key_with_user db user now c).2 =
      .error (if 0 < remaining_unclaimed db then DbError.alreadyClaimedThisRound
              else DbError.poolExhausted)
    ∧ (claim_key_with_user db user now c).1.keys = db.keys := by
  rw [claim_of_select_none db user now c h]
  exact ⟨rfl, insertOrIgnoreUser_keys db user⟩

/-- Claim C2 witness: blocked user with a positive unclaimed count. -/
theorem claim_error_discrimination_witness :
    selectClaimKey (insertOrIgnoreUser exClaimedDb2 "alice") "alice" = none ∧
    (claim_key_with_user exClaimedDb2 "alice" 7 true).2 =
      .error (if 0 < remaining_unclaimed exClaimedDb2 then DbError.alreadyClaimedThisRound
              else DbError.poolExhausted) ∧
    (claim_key_with_user exClaimedDb2 "alice" 7 true).1.keys = exClaimedDb2.keys :=
  ⟨by decide, (claim_error_discrimination exClaimedDb2 "alice" 7 true (by decide)).1,
   (claim_error_discrimination exClaimedDb2 "alice" 7 true (by decide)).2⟩

/-- Claim C4 (amended): `set_key_role` is cache-first, not store-first: the
in-memory cache is updated under its mutex before the config store is
persisted, so on persistence failure the cache retains the new value
(while the durable store is unchanged) and the error is surfaced. -/
theorem set_key_role_cache_first (db : Db) (cache : List (String × String))
    (roleId : String) (ok : Bool) :
    (set_key_role db cache roleId ok).2.1 = upsertKV cache "role_id" roleId
    ∧ (ok = false → (set_key_role db cache roleId ok).1 = db
        ∧ (set_key_role db cache roleId ok).2.2 = .error DbError.storage)
    ∧ (ok = true → (set_key_role db cache roleId ok).1 = set_config_val db "role_id" roleId
        ∧ (set_key_role db cache roleId ok).2.2 = .ok ()) := by
  cases ok <;> simp [set_key_role]

/-- Claim C4 counterexample: starting from an empty cache and store, a
`set_key_role` whose persistence step fails surfaces the error but leaves
the new value in the cache — the cache is not left unchanged as claimed. -/
theorem set_key_role_store_first_cex :
    (set_key_role emptyDb [] "42" false).2.1 = [("role_id", "42")] ∧
    (set_key_role emptyDb [] "42" false).2.2 = .error DbError.storage ∧
    (set_key_role emptyDb [] "42" false).1 = emptyDb ∧
    [("role_id", "42")] ≠ ([] : List (String × String)) :=
  ⟨rfl, rfl, rfl, by decide⟩

/-- Claim C4 witness: the amended behaviour at a concrete failing call. -/
theorem set_key_role_cache_first_witness :
    (set_key_role emptyDb [("x", "y")] "7" false).2.1
      = upsertKV [("x", "y")] "role_id" "7"
    ∧ (set_key_role emptyDb [("x", "y")] "7" false).1 = emptyDb
    ∧ (set_key_role emptyDb [("x", "y")] "7" false).2.2 = .error DbError.storage :=
  ⟨(set_key_role_cache_first emptyDb [("x", "y")] "7" false).1,
   ((set_key_role_cache_first emptyDb [("x", "y")] "7" false).2.1 rfl).1,
   ((set_key_role_cache_first emptyDb [("x", "y")] "7" false).2.1 rfl).2⟩

/-- Claim C5 (amended): the bind UPDATE matches solely on the token value
and carries no unclaimed guard — it never fails: on a missing token it
updates nothing (and reports no error), and on any present token,
claimed or not, it sets the claim fields unconditionally. -/
theorem bindUpdate_no_guard (db : Db) (user keyVal : String) (now : Nat) :
    ((∀ k ∈ db.keys, k.key_val ≠ keyVal) → bindUpdate db user keyVal now = db)
    ∧ ∀ k ∈ db.keys, k.key_val = keyVal →
        { k with claimed := true, user_claim := lookupUserId db user,
                 claimed_at := some now, claim_round := activeRoundId db }
          ∈ (bindUpdate db user keyVal now).keys := by
  constructor
  · intro h
    unfold bindUpdate
    have hm : db.keys.map (fun k =>
        if k.key_val == keyVal then
          { k with claimed := true, user_claim := lookupUserId db user,
                   claimed_at := some now, claim_round := activeRoundId db }
        else k) = db.keys := by
      conv_rhs => rw [← List.map_id db.keys]
      apply List.map_congr_left
      intro k hk
      simp [h k hk]
    rw [hm]
  · intro k hk hkv
    unfold bindUpdate
    have hmem := List.mem_map_of_mem (f := fun k =>
        if k.key_val == keyVal then
          { k with claimed := true, user_claim := lookupUserId db user,
                   claimed_at := some now, claim_round := activeRoundId db }
        else k) hk
    simpa [hkv] using hmem

/-- Claim C5 counterexample: "K1" is already claimed by alice (user 1), yet
the bind UPDATE for bob succeeds and silently rebinds the token to bob
(user 2) with a fresh timestamp — it does not fail on an already-claimed
token. -/
theorem bindUpdate_guard_cex :
    exTwoUserDb.keys = [⟨1, "K1", true, some 1, some 0, 0, some 1⟩] ∧
    (bindUpdate exTwoUserDb "bob" "K1" 9).keys
      = [⟨1, "K1", true, some 2, some 9, 0, some 1⟩] :=
  ⟨rfl, rfl⟩

/-- Claim C5 witness: the amended behaviour at concrete inputs. -/
theorem bindUpdate_no_guard_witness :
    bindUpdate exTwoUserDb "bob" "missing" 9 = exTwoUserDb ∧
    { (⟨1, "K1", true, some 1, some 0, 0, some 1⟩ : KeyRow) with
        claimed := true, user_claim := lookupUserId exTwoUserDb "bob",
        claimed_at := some 9, claim_round := activeRoundId exTwoUserDb }
      ∈ (bindUpdate exTwoUserDb "bob" "K1" 9).keys :=
  ⟨(bindUpdate_no_guard exTwoUserDb "bob" "missing" 9).1 (by decide),
   (bindUpdate_no_guard exTwoUserDb "bob" "K1" 9).2
     ⟨1, "K1", true, some 1, some 0, 0, some 1⟩ (by decide) rfl⟩

end Keybot

namespace Keybot

/-! Lemmas about give_key_unchecked and the user upsert placement. -/

theorem exists_unclaimed_of_pos {db : Db} (h : 0 < remaining_unclaimed db) :
    ∃ k, k ∈ db.keys ∧ (!k.claimed) = true := by
  unfold remaining_unclaimed at h
  have hne : db.keys.filter (fun k => !k.claimed) ≠ [] := by
    intro he; rw [he] at h; simp at h
  obtain ⟨k, hk⟩ := List.exists_mem_of_ne_nil _ hne
  exact ⟨k, (List.mem_filter.mp hk).1, (List.mem_filter.mp hk).2⟩

theorem give_key_unchecked_of_no_unclaimed {db : Db} (user : String) (now : Nat)
    (c : Bool) (h : remaining_unclaimed db = 0) :
    give_key_unchecked db user now c = (db, .error DbError.rowNotFound) := by
  unfold give_key_unchecked
  have hfind : (insertOrIgnoreUser db user).keys.find? (fun k => !k.claimed) = none := by
    rw [insertOrIgnoreUser_keys, List.find?_eq_none]
    intro k hk hcl
    have hmem : k ∈ db.keys.filter (fun k => !k.claimed) := List.mem_filter.mpr ⟨hk, hcl⟩
    unfold remaining_unclaimed at h
    rw [List.length_eq_zero.mp h] at hmem
    exact absurd hmem (List.not_mem_nil k)
  rw [hfind]

theorem userExists_claim_key_state (db : Db) (user : String) (now : Nat) (c : Bool) :
    userExists (claim_key_with_user db user now c).1 user = true := by
  unfold claim_key_with_user
  cases hsel : selectClaimKey (insertOrIgnoreUser db user) user with
  | none =>
      dsimp only
      split <;> exact userExists_insertOrIgnoreUser db user
  | some k =>
      dsimp only
      split
      · unfold userExists
        rw [bindUpdate_users]
        exact userExists_insertOrIgnoreUser db user
      · exact userExists_insertOrIgnoreUser db user

theorem lookupUserId_spec {db : Db} {user : String} (h : userExists db user = true) :
    ∃ u, u ∈ db.users ∧ lookupUserId db user = some u.id
      ∧ (u.username == user) = true := by
  unfold userExists at h
  rw [List.any_eq_true] at h
  have hs : (db.users.find? fun u => u.username == user).isSome :=
    List.find?_isSome.mpr h
  obtain ⟨u, hu⟩ := Option.isSome_iff_exists.mp hs
  have hp := List.find?_some hu
  refine ⟨u, List.mem_of_find?_eq_some hu, ?_, hp⟩
  unfold lookupUserId
  rw [hu]
  rfl

theorem activeRoundId_insertOrIgnoreUser (db : Db) (user : String) :
    activeRoundId (insertOrIgnoreUser db user) = activeRoundId db := by
  unfold activeRoundId
  rw [insertOrIgnoreUser_rounds]

/-- Claim C10: the user upsert in claim_key_with_user runs before (outside)
the claim transaction, so after every failing claim call the user row
exists; in give_key_unchecked the upsert is inside the transaction and is
rolled back when the select finds no token, leaving the database — the
users table included — exactly as before. -/
theorem failed_claim_still_creates_user (db : Db) (user : String) (now : Nat) (c : Bool) :
    (∀ e : DbError, (claim_key_with_user db user now c).2 = .error e →
        userExists (claim_key_with_user db user now c).1 user = true)
    ∧ (remaining_unclaimed db = 0 → (give_key_unchecked db user now c).1 = db) :=
  ⟨fun _ _ => userExists_claim_key_state db user now c,
   fun h => by rw [give_key_unchecked_of_no_unclaimed user now c h]⟩

/-- Claim C10 witness: carol's failing claim (pool exhausted) still creates
her user row; dave's give_key_unchecked on the same exhausted pool leaves
the database untouched. -/
theorem failed_claim_still_creates_user_witness :
    (claim_key_with_user exClaimedDb "carol" 3 true).2 = .error DbError.poolExhausted
    ∧ userExists (claim_key_with_user exClaimedDb "carol" 3 true).1 "carol" = true
    ∧ (give_key_unchecked exClaimedDb "dave" 3 true).1 = exClaimedDb :=
  ⟨rfl,
   (failed_claim_still_creates_user exClaimedDb "carol" 3 true).1
     DbError.poolExhausted rfl,
   (failed_claim_still_creates_user exClaimedDb "dave" 3 true).2 (by decide)⟩

/-- Claim C7: give_key_unchecked selects on the `claimed = FALSE` condition
alone (for any user, blocked or not), binds the selected token recording
the currently active round, and when no unclaimed token remains it fails —
with the select's row-not-found error, the taxonomy's PoolExhausted — and
rolls the transaction back. -/
theorem give_key_unchecked_spec (db : Db) (user : String) (now : Nat) :
    (remaining_unclaimed db = 0 →
        give_key_unchecked db user now true = (db, .error DbError.rowNotFound))
    ∧ (0 < remaining_unclaimed db →
        ∃ v, (give_key_unchecked db user now true).2 = .ok v
          ∧ (∃ k ∈ db.keys, k.key_val = v ∧ k.claimed = false)
          ∧ ∃ k2 ∈ (give_key_unchecked db user now true).1.keys,
              k2.key_val = v ∧ k2.claimed = true
              ∧ k2.claim_round = activeRoundId db
              ∧ boundTo (give_key_unchecked db user now true).1 k2 user = true) := by
  constructor
  · exact give_key_unchecked_of_no_unclaimed user now true
  · intro h
    obtain ⟨k0, hk0, hk0c⟩ := exists_unclaimed_of_pos h
    have hsome : ((insertOrIgnoreUser db user).keys.find? (fun k => !k.claimed)).isSome := by
      rw [insertOrIgnoreUser_keys, List.find?_isSome]
      exact ⟨k0, hk0, hk0c⟩
    obtain ⟨k, hfind⟩ := Option.isSome_iff_exists.mp hsome
    have hres : give_key_unchecked db user now true =
        (bindUpdate (insertOrIgnoreUser db user) user k.key_val now, .ok k.key_val) := by
      unfold give_key_unchecked
      rw [hfind]
      rfl
    have hkmem : k ∈ db.keys := by
      have := List.mem_of_find?_eq_some hfind
      rwa [insertOrIgnoreUser_keys] at this
    have hkc : k.claimed = false := by
      have := List.find?_some hfind
      simpa using this
    refine ⟨k.key_val, by rw [hres], ⟨k, hkmem, rfl, hkc⟩, ?_⟩
    obtain ⟨u, humem, hulook, huname⟩ :=
      lookupUserId_spec (userExists_insertOrIgnoreUser db user)
    refine ⟨{ k with
                claimed := true,
                user_claim := lookupUserId (insertOrIgnoreUser db user) user,
                claimed_at := some now,
                claim_round := activeRoundId (insertOrIgnoreUser db user) }, ?_, rfl, rfl,
            ?_, ?_⟩
    · rw [hres]
      have hk1 : k ∈ (insertOrIgnoreUser db user).keys := by
        rw [insertOrIgnoreUser_keys]; exact hkmem
      have := List.mem_map_of_mem (f := fun x =>
          if x.key_val == k.key_val then
            { x with claimed := true,
                     user_claim := lookupUserId (insertOrIgnoreUser db user) user,
                     claimed_at := some now,
                     claim_round := activeRoundId (insertOrIgnoreUser db user) }
          else x) hk1
      simpa [bindUpdate] using this
    · exact activeRoundId_insertOrIgnoreUser db user
    · rw [hres]
      unfold boundTo
      rw [List.any_eq_true]
      refine ⟨u, ?_, ?_⟩
      · rw [bindUpdate_users]; exact humem
      · rw [Bool.and_eq_true]
        refine ⟨?_, huname⟩
        rw [hulook]
        simp
  
/-- Claim C7 witness: on an exhausted pool the call fails and rolls back;
on a pool with an unclaimed token the (per-round-blocked) user alice still
receives a token bound to the active round. -/
theorem give_key_unchecked_spec_witness :
    give_key_unchecked exClaimedDb "bob" 3 true = (exClaimedDb, .error DbError.rowNotFound)
    ∧ ∃ v, (give_key_unchecked exClaimedDb2 "alice" 4 true).2 = .ok v
        ∧ (∃ k ∈ exClaimedDb2.keys, k.key_val = v ∧ k.claimed = false)
        ∧ ∃ k2 ∈ (give_key_unchecked exClaimedDb2 "alice" 4 true).1.keys,
            k2.key_val = v ∧ k2.claimed = true
            ∧ k2.claim_round = activeRoundId exClaimedDb2
            ∧ boundTo (give_key_unchecked exClaimedDb2 "alice" 4 true).1 k2 "alice" = true :=
  ⟨(give_key_unchecked_spec exClaimedDb "bob" 3).1 (by decide),
   (give_key_unchecked_spec exClaimedDb2 "alice" 4).2 (by decide)⟩

end Keybot

namespace Keybot

/-! Lemmas about ingestion (read_beta_keys_file). -/

theorem keyVals_insertOrIgnoreKey_self (db : Db) (v : String) (now : Nat) :
    v ∈ keyVals (insertOrIgnoreKey db v now) := by
  unfold insertOrIgnoreKey
  split
  · rename_i hany
    obtain ⟨k, hk, hkv⟩ := List.any_eq_true.mp hany
    exact List.mem_map.mpr ⟨k, hk, by simpa using hkv⟩
  · unfold keyVals
    simp

theorem keyVals_insertOrIgnoreKey_mono (db : Db) (v w : String) (now : Nat)
    (h : v ∈ keyVals db) : v ∈ keyVals (insertOrIgnoreKey db w now) := by
  unfold insertOrIgnoreKey
  split
  · exact h
  · unfold keyVals at *
    simp only [List.map_append]
    exact List.mem_append_left _ h

theorem insertOrIgnoreKey_eq_self {db : Db} {v : String} (now : Nat)
    (h : v ∈ keyVals db) : insertOrIgnoreKey db v now = db := by
  have hany : db.keys.any (fun k => k.key_val == v) = true := by
    simp only [keyVals, List.mem_map] at h
    obtain ⟨k, hk, hkv⟩ := h
    exact List.any_eq_true.mpr ⟨k, hk, by simp [hkv]⟩
  unfold insertOrIgnoreKey
  simp [hany]

theorem keyVals_run_mono {v : String} :
    ∀ (lines : List String) (db : Db) (now : Nat),
      v ∈ keyVals db → v ∈ keyVals (read_beta_keys_file db lines now)
  | [], _, _, h => h
  | w :: ws, db, now, h =>
      keyVals_run_mono ws (insertOrIgnoreKey db w now) now
        (keyVals_insertOrIgnoreKey_mono db v w now h)

theorem run_all_mem :
    ∀ (lines : List String) (db : Db) (now : Nat) (v : String),
      v ∈ lines → v ∈ keyVals (read_beta_keys_file db lines now)
  | [], _, _, _, h => absurd h (List.not_mem_nil _)
  | w :: ws, db, now, v, h => by
      rcases List.mem_cons.mp h with h1 | h2
      · subst h1
        exact keyVals_run_mono ws (insertOrIgnoreKey db v now) now
          (keyVals_insertOrIgnoreKey_self db v now)
      · exact run_all_mem ws (insertOrIgnoreKey db w now) now v h2

theorem run_eq_self :
    ∀ (lines : List String) (db : Db) (now : Nat),
      (∀ v ∈ lines, v ∈ keyVals db) → read_beta_keys_file db lines now = db
  | [], _, _, _ => rfl
  | w :: ws, db, now, h => by
      have h1 : insertOrIgnoreKey db w now = db :=
        insertOrIgnoreKey_eq_self now (h w (List.mem_cons_self w ws))
      show read_beta_keys_file (insertOrIgnoreKey db w now) ws now = db
      rw [h1]
      exact run_eq_self ws db now (fun v hv => h v (List.mem_cons_of_mem w hv))

theorem run_keys_append :
    ∀ (lines : List String) (db : Db) (now : Nat),
      ∃ t, (read_beta_keys_file db lines now).keys = db.keys ++ t
  | [], db, _ => ⟨[], (List.append_nil db.keys).symm⟩
  | w :: ws, db, now => by
      obtain ⟨t1, ht1⟩ := run_keys_append ws (insertOrIgnoreKey db w now) now
      show ∃ t, (read_beta_keys_file (insertOrIgnoreKey db w now) ws now).keys
        = db.keys ++ t
      rw [ht1]
      unfold insertOrIgnoreKey
      split
      · exact ⟨t1, rfl⟩
      · exact ⟨_, by rw [List.append_assoc]⟩

/-- Claim C8: ingestion is idempotent — running read_beta_keys_file twice
over the same candidate list leaves the inventory exactly as one run does
(so the token count is unchanged by the second run and duplicates are
silent no-ops), and a run never removes or modifies an existing row: the
old keys table survives unchanged as a prefix of the new one. -/
theorem ingestion_idempotent (db : Db) (lines : List String) (now1 now2 : Nat) :
    read_beta_keys_file (read_beta_keys_file db lines now1) lines now2
      = read_beta_keys_file db lines now1
    ∧ ∃ t, (read_beta_keys_file db lines now1).keys = db.keys ++ t :=
  ⟨run_eq_self lines (read_beta_keys_file db lines now1) now2
     (fun v hv => run_all_mem lines db now1 v hv),
   run_keys_append lines db now1⟩

end Keybot

namespace Keybot

/-! Lemmas about claiming when no round is active. -/

theorem userBlocked_eq_false_of_no_active {db : Db} (user : String)
    (hact : ∀ r ∈ db.rounds, r.status ≠ "active") :
    userBlockedInActiveRound db user = false := by
  unfold userBlockedInActiveRound
  rw [List.any_eq_false]
  intro k2 _
  have hr : (db.rounds.any fun gr =>
      k2.claim_round == some gr.round_id && gr.status == "active") = false := by
    rw [List.any_eq_false]
    intro gr hgr h
    rw [Bool.and_eq_true] at h
    exact hact gr hgr (by simpa using h.2)
  simp [hr]

theorem activeRoundId_eq_none {db : Db}
    (hact : ∀ r ∈ db.rounds, r.status ≠ "active") :
    activeRoundId db = none := by
  unfold activeRoundId
  have hfil : db.rounds.filter (fun r => r.status == "active") = [] := by
    rw [List.filter_eq_nil_iff]
    intro r hr
    simpa using hact r hr
  rw [hfil]
  rfl

theorem claim_key_rounds (db : Db) (user : String) (now : Nat) (c : Bool) :
    (claim_key_with_user db user now c).1.rounds = db.rounds := by
  unfold claim_key_with_user
  cases hsel : selectClaimKey (insertOrIgnoreUser db user) user with
  | none =>
      dsimp only
      split <;> exact insertOrIgnoreUser_rounds db user
  | some k =>
      dsimp only
      split
      · rw [bindUpdate_rounds]
        exact insertOrIgnoreUser_rounds db user
      · exact insertOrIgnoreUser_rounds db user

theorem claim_no_active_core (db : Db) (user : String) (now : Nat)
    (hact : ∀ r ∈ db.rounds, r.status ≠ "active")
    (hun : 0 < remaining_unclaimed db) :
    ∃ v, (claim_key_with_user db user now true).2 = .ok v
      ∧ ∃ k2 ∈ (claim_key_with_user db user now true).1.keys,
          k2.key_val = v ∧ k2.claimed = true ∧ k2.claim_round = none := by
  have hact1 : ∀ r ∈ (insertOrIgnoreUser db user).rounds, r.status ≠ "active" := by
    rw [insertOrIgnoreUser_rounds]; exact hact
  have hb : userBlockedInActiveRound (insertOrIgnoreUser db user) user = false :=
    userBlocked_eq_false_of_no_active user hact1
  obtain ⟨k0, hk0, hk0c⟩ := exists_unclaimed_of_pos hun
  have hsome : (selectClaimKey (insertOrIgnoreUser db user) user).isSome := by
    unfold selectClaimKey
    rw [List.find?_isSome]
    exact ⟨k0, by rw [insertOrIgnoreUser_keys]; exact hk0, by simp [hb, hk0c]⟩
  obtain ⟨k, hsel⟩ := Option.isSome_iff_exists.mp hsome
  have hres := claim_of_select_some db user now hsel
  have hkmem : k ∈ (insertOrIgnoreUser db user).keys := by
    unfold selectClaimKey at hsel
    exact List.mem_of_find?_eq_some hsel
  refine ⟨k.key_val, by rw [hres], ?_⟩
  refine ⟨{ k with
              claimed := true,
              user_claim := lookupUserId (insertOrIgnoreUser db user) user,
              claimed_at := some now,
              claim_round := activeRoundId (insertOrIgnoreUser db user) }, ?_, rfl, rfl, ?_⟩
  · rw [hres]
    have := List.mem_map_of_mem (f := fun x =>
        if x.key_val == k.key_val then
          { x with claimed := true,
                   user_claim := lookupUserId (insertOrIgnoreUser db user) user,
                   claimed_at := some now,
                   claim_round := activeRoundId (insertOrIgnoreUser db user) }
        else x) hkmem
    simpa [bindUpdate] using this
  · exact activeRoundId_eq_none hact1

/-- Claim C9: when no round has status 'active', claim(user) succeeds
whenever an unclaimed token exists and binds the token with a NULL claim
round; a null-round claim never triggers the AlreadyClaimedThisRound
exclusion (the predicate only counts tokens whose bound round is currently
active), so the same user can immediately claim again while unclaimed
tokens remain. -/
theorem claim_no_active_round (db : Db) (user : String) (now now2 : Nat)
    (hact : ∀ r ∈ db.rounds, r.status ≠ "active")
    (hun : 0 < remaining_unclaimed db) :
    (∃ v, (claim_key_with_user db user now true).2 = .ok v
      ∧ ∃ k2 ∈ (claim_key_with_user db user now true).1.keys,
          k2.key_val = v ∧ k2.claimed = true ∧ k2.claim_round = none)
    ∧ userBlockedInActiveRound (claim_key_with_user db user now true).1 user = false
    ∧ (0 < remaining_unclaimed (claim_key_with_user db user now true).1 →
        ∃ v2, (claim_key_with_user
                 (claim_key_with_user db user now true).1 user now2 true).2 = .ok v2) := by
  have hact2 : ∀ r ∈ (claim_key_with_user db user now true).1.rounds,
      r.status ≠ "active" := by
    rw [claim_key_rounds]; exact hact
  refine ⟨claim_no_active_core db user now hact hun,
          userBlocked_eq_false_of_no_active user hact2, ?_⟩
  intro hun2
  obtain ⟨v2, hv2, -⟩ := claim_no_active_core
    (claim_key_with_user db user now true).1 user now2 hact2 hun2
  exact ⟨v2, hv2⟩

/-- Claim C9 witness: a pool of two unclaimed keys with an empty rounds
table lets the same user claim twice in a row, both with NULL claim round. -/
theorem claim_no_active_round_witness :
    (∃ v, (claim_key_with_user exNoRoundDb "alice" 1 true).2 = .ok v
      ∧ ∃ k2 ∈ (claim_key_with_user exNoRoundDb "alice" 1 true).1.keys,
          k2.key_val = v ∧ k2.claimed = true ∧ k2.claim_round = none)
    ∧ userBlockedInActiveRound (claim_key_with_user exNoRoundDb "alice" 1 true).1 "alice"
        = false
    ∧ (0 < remaining_unclaimed (claim_key_with_user exNoRoundDb "alice" 1 true).1 →
        ∃ v2, (claim_key_with_user
                 (claim_key_with_user exNoRoundDb "alice" 1 true).1 "alice" 2 true).2
          = .ok v2) :=
  claim_no_active_round exNoRoundDb "alice" 1 2 (by decide) (by decide)

end Keybot

namespace Keybot

/-! Lemmas about round rollover (set_round_db). -/

theorem completeActive_not_active (rs : List RoundRow) :
    ∀ r ∈ completeActive rs, r.status ≠ "active" := by
  intro r hr
  unfold completeActive at hr
  obtain ⟨r0, -, hfr⟩ := List.mem_map.mp hr
  by_cases h0 : (r0.status == "active") = true
  · rw [if_pos h0] at hfr
    rw [← hfr]
    simp
  · rw [if_neg h0] at hfr
    rw [← hfr]
    simpa using h0

theorem active_imp_id (rs : List RoundRow) (n : Int) :
    ∀ r ∈ insertOrReplaceRound (completeActive rs) n,
      r.status = "active" → r.round_id = n := by
  intro r hr hs
  unfold insertOrReplaceRound at hr
  split at hr
  · obtain ⟨r0, hr0, hfr⟩ := List.mem_map.mp hr
    by_cases h0 : (r0.round_id == n) = true
    · rw [if_pos h0] at hfr
      rw [← hfr]
    · rw [if_neg h0] at hfr
      exact absurd (hfr ▸ hs) (completeActive_not_active rs r0 hr0)
  · rcases List.mem_append.mp hr with h1 | h2
    · exact absurd hs (completeActive_not_active rs r h1)
    · have : r = ⟨n, "active"⟩ := by simpa using h2
      rw [this]

theorem userBlocked_eq_false_of_fresh {db : Db} (user : String) {n : Int}
    (hfresh : ∀ k ∈ db.keys, k.claim_round ≠ some n)
    (hround : ∀ r ∈ db.rounds, r.status = "active" → r.round_id = n) :
    userBlockedInActiveRound db user = false := by
  unfold userBlockedInActiveRound
  rw [List.any_eq_false]
  intro k2 hk2
  have hr : (db.rounds.any fun gr =>
      k2.claim_round == some gr.round_id && gr.status == "active") = false := by
    rw [List.any_eq_false]
    intro gr hgr h
    rw [Bool.and_eq_true] at h
    have hs : gr.status = "active" := by simpa using h.2
    have hid : gr.round_id = n := hround gr hgr hs
    have hcr : k2.claim_round = some gr.round_id := by simpa using h.1
    exact hfresh k2 hk2 (hid ▸ hcr)
  simp [hr]

/-- Claim C6: a user holding a claimed round-R token can claim again after
an administrator opens a fresh round number: the new claim succeeds
whenever an unclaimed token remains, and the token it returns differs from
the user's round-R token. -/
theorem round_rollover_reenables_claim (db : Db) (user : String) (kR : KeyRow)
    (r2 : Int) (cfg : List (String × String)) (now : Nat)
    (huniq : (keyVals db).Nodup)
    (hfresh : ∀ k ∈ db.keys, k.claim_round ≠ some r2)
    (hkR : kR ∈ db.keys) (hclaimed : kR.claimed = true)
    (_hbound : boundTo db kR user = true)
    (hun : 0 < remaining_unclaimed db) :
    ∃ v, (claim_key_with_user (set_round_db db r2 cfg true).1 user now true).2 = .ok v
      ∧ v ≠ kR.key_val := by
  have hkeysR : (set_round_db db r2 cfg true).1.keys = db.keys := rfl
  have hroundsR : (set_round_db db r2 cfg true).1.rounds
      = insertOrReplaceRound (completeActive db.rounds) r2 := rfl
  set dbR := (set_round_db db r2 cfg true).1 with hdbR
  have hfresh1 : ∀ k ∈ (insertOrIgnoreUser dbR user).keys, k.claim_round ≠ some r2 := by
    rw [insertOrIgnoreUser_keys, hkeysR]
    exact hfresh
  have hround1 : ∀ r ∈ (insertOrIgnoreUser dbR user).rounds,
      r.status = "active" → r.round_id = r2 := by
    rw [insertOrIgnoreUser_rounds, hroundsR]
    exact active_imp_id db.rounds r2
  have hb : userBlockedInActiveRound (insertOrIgnoreUser dbR user) user = false :=
    userBlocked_eq_false_of_fresh user hfresh1 hround1
  obtain ⟨k0, hk0, hk0c⟩ := exists_unclaimed_of_pos hun
  have hsome : (selectClaimKey (insertOrIgnoreUser dbR user) user).isSome := by
    unfold selectClaimKey
    rw [List.find?_isSome]
    refine ⟨k0, ?_, by simp [hb, hk0c]⟩
    rw [insertOrIgnoreUser_keys, hkeysR]
    exact hk0
  obtain ⟨k, hsel⟩ := Option.isSome_iff_exists.mp hsome
  have hres := claim_of_select_some dbR user now hsel
  have hkmem : k ∈ db.keys := by
    unfold selectClaimKey at hsel
    have := List.mem_of_find?_eq_some hsel
    rwa [insertOrIgnoreUser_keys, hkeysR] at this
  have hkc : k.claimed = false := by
    unfold selectClaimKey at hsel
    have := List.find?_some hsel
    rw [Bool.and_eq_true] at this
    simpa using this.1
  refine ⟨k.key_val, by rw [hres], ?_⟩
  intro hv
  have hkk : k = kR := by
    unfold keyVals at huniq
    exact List.inj_on_of_nodup_map huniq hkmem hkR hv
  rw [hkk, hclaimed] at hkc
  exact Bool.noConfusion hkc

/-- Claim C6 witness: alice claimed "K1" in round 1; after round 2 opens
she claims again and receives a token other than "K1" (here "K2"). -/
theorem round_rollover_reenables_claim_witness :
    ∃ v, (claim_key_with_user (set_round_db exClaimedDb2 2 [] true).1 "alice" 9 true).2
      = .ok v ∧ v ≠ "K1" := by
  have h := round_rollover_reenables_claim exClaimedDb2 "alice"
    ⟨1, "K1", true, some 1, some 0, 0, some 1⟩ 2 [] 9
    (by decide) (by decide) (by decide) (by decide) (by decide) (by decide)
  simpa using h

end Keybot

namespace Keybot

/-! Lemmas for the at-most-one-active-round invariant. -/

theorem activeCount_eq_countP (rs : List RoundRow) :
    activeCount rs = rs.countP (fun r => r.status == "active") :=
  (List.countP_eq_length_filter _ _).symm

theorem roundIds_completeActive (rs : List RoundRow) :
    roundIds (completeActive rs) = roundIds rs := by
  unfold roundIds completeActive
  rw [List.map_map]
  apply List.map_congr_left
  intro r _
  by_cases h : (r.status == "active") = true
  · simp [Function.comp, h]
  · simp [Function.comp, h]

theorem activeCount_completeActive (rs : List RoundRow) :
    activeCount (completeActive rs) = 0 := by
  unfold activeCount
  rw [List.length_eq_zero, List.filter_eq_nil_iff]
  intro r hr
  simpa using completeActive_not_active rs r hr

theorem roundIds_insertOrReplaceRound_present (rs : List RoundRow) (n : Int)
    (h : rs.any (fun r => r.round_id == n) = true) :
    roundIds (insertOrReplaceRound rs n) = roundIds rs := by
  unfold insertOrReplaceRound
  rw [if_pos h]
  unfold roundIds
  rw [List.map_map]
  apply List.map_congr_left
  intro r _
  by_cases h0 : (r.round_id == n) = true
  · have : r.round_id = n := by simpa using h0
    simp [Function.comp, h0, this]
  · simp [Function.comp, h0]

theorem nodup_roundIds_insertOrReplaceRound (rs : List RoundRow) (n : Int)
    (h : (roundIds rs).Nodup) : (roundIds (insertOrReplaceRound rs n)).Nodup := by
  by_cases hany : rs.any (fun r => r.round_id == n) = true
  · rw [roundIds_insertOrReplaceRound_present rs n hany]
    exact h
  · unfold insertOrReplaceRound
    rw [if_neg hany]
    unfold roundIds
    rw [List.map_append]
    refine List.Nodup.append h (List.nodup_singleton n) ?_
    intro a ha hb
    have hae : a = n := by simpa using hb
    subst hae
    obtain ⟨r, hr, hrid⟩ := List.mem_map.mp ha
    exact hany (List.any_eq_true.mpr ⟨r, hr, by simp [hrid]⟩)

theorem activeCount_insertOrReplaceRound (rs : List RoundRow) (n : Int)
    (hna : ∀ r ∈ rs, r.status ≠ "active") (hnd : (roundIds rs).Nodup) :
    activeCount (insertOrReplaceRound rs n) = 1 := by
  by_cases hany : rs.any (fun r => r.round_id == n) = true
  · unfold insertOrReplaceRound
    rw [if_pos hany]
    rw [activeCount_eq_countP, List.countP_map]
    have hc : rs.countP ((fun r => r.status == "active") ∘ fun r =>
        if r.round_id == n then ⟨n, "active"⟩ else r)
        = rs.countP (fun r => r.round_id == n) := by
      apply List.countP_congr
      intro r hr
      by_cases h0 : (r.round_id == n) = true
      · simp [Function.comp, h0]
      · simp only [Function.comp, h0, if_neg h0, if_false]
        constructor
        · intro habs
          exact absurd (by simpa using habs) (hna r hr)
        · intro habs
          exact absurd habs (by simp [h0])
    rw [hc]
    have h2 : rs.countP (fun r => r.round_id == n) = (roundIds rs).count n := by
      unfold roundIds
      rw [List.count_eq_countP, List.countP_map]
      rfl
    rw [h2]
    apply List.count_eq_one_of_mem hnd
    obtain ⟨r, hr, hid⟩ := List.any_eq_true.mp hany
    exact List.mem_map.mpr ⟨r, hr, by simpa using hid⟩
  · unfold insertOrReplaceRound
    rw [if_neg hany]
    unfold activeCount
    rw [List.filter_append]
    have hfil : rs.filter (fun r => r.status == "active") = [] := by
      rw [List.filter_eq_nil_iff]
      intro r hr
      simpa using hna r hr
    rw [hfil]
    rfl

theorem set_round_step (db : Db) (n : Int) (cfg : List (String × String))
    (hnd : (roundIds db.rounds).Nodup) :
    activeCount ((set_round_db db n cfg true).1.rounds) = 1
    ∧ (roundIds ((set_round_db db n cfg true).1.rounds)).Nodup := by
  have hr : (set_round_db db n cfg true).1.rounds
      = insertOrReplaceRound (completeActive db.rounds) n := rfl
  rw [hr]
  have hnd2 : (roundIds (completeActive db.rounds)).Nodup := by
    rw [roundIds_completeActive]
    exact hnd
  exact ⟨activeCount_insertOrReplaceRound _ n (completeActive_not_active db.rounds) hnd2,
         nodup_roundIds_insertOrReplaceRound _ n hnd2⟩

theorem runRounds_invariant :
    ∀ (cs : List (Int × Bool)) (db : Db),
      (roundIds db.rounds).Nodup → activeCount db.rounds ≤ 1 →
      (roundIds (runRounds db cs).rounds).Nodup
        ∧ activeCount (runRounds db cs).rounds ≤ 1
  | [], _, h1, h2 => ⟨h1, h2⟩
  | c :: cs, db, h1, h2 => by
      show (roundIds (runRounds (set_round_db db c.1 [] c.2).1 cs).rounds).Nodup
        ∧ activeCount (runRounds (set_round_db db c.1 [] c.2).1 cs).rounds ≤ 1
      cases hc : c.2
      · exact runRounds_invariant cs db h1 h2
      · have hs := set_round_step db c.1 [] h1
        exact runRounds_invariant cs _ hs.2 (le_of_eq hs.1)

theorem runRounds_active_one :
    ∀ (cs : List (Int × Bool)) (db : Db),
      (roundIds db.rounds).Nodup → activeCount db.rounds = 1 →
      activeCount (runRounds db cs).rounds = 1
  | [], _, _, h2 => h2
  | c :: cs, db, h1, h2 => by
      show activeCount (runRounds (set_round_db db c.1 [] c.2).1 cs).rounds = 1
      cases hc : c.2
      · exact runRounds_active_one cs db h1 h2
      · have hs := set_round_step db c.1 [] h1
        exact runRounds_active_one cs _ hs.2 hs.1

theorem runRounds_exists_success :
    ∀ (cs : List (Int × Bool)) (db : Db),
      (roundIds db.rounds).Nodup → (∃ c ∈ cs, c.2 = true) →
      activeCount (runRounds db cs).rounds = 1
  | [], _, _, h => by
      obtain ⟨c, hc, -⟩ := h
      exact absurd hc (List.not_mem_nil c)
  | c :: cs, db, hnd, h => by
      show activeCount (runRounds (set_round_db db c.1 [] c.2).1 cs).rounds = 1
      cases hc : c.2
      · obtain ⟨d, hd, hdt⟩ := h
        rcases List.mem_cons.mp hd with heq | hmem
        · rw [heq] at hdt
          rw [hc] at hdt
          exact absurd hdt (by simp)
        · exact runRounds_exists_success cs db hnd ⟨d, hmem, hdt⟩
      · have hs := set_round_step db c.1 [] hnd
        exact runRounds_active_one cs _ hs.2 hs.1

/-- Claim C3: starting from the fresh database, after any sequence of
openRound (set_round_db) calls the rounds table has at most one row with
status 'active' — exactly zero when openRound was never called and exactly
one as soon as some call committed; and each successful call first marks
every active row completed and then insert-or-replaces `(n, 'active')`
inside one transaction. -/
theorem openRound_active_invariant (calls : List (Int × Bool)) :
    activeCount ((runRounds emptyDb calls).rounds) ≤ 1
    ∧ (calls = [] → activeCount ((runRounds emptyDb calls).rounds) = 0)
    ∧ ((∃ c ∈ calls, c.2 = true) →
        activeCount ((runRounds emptyDb calls).rounds) = 1)
    ∧ ∀ (db : Db) (n : Int) (cfg : List (String × String)),
        (set_round_db db n cfg true).1.rounds
          = insertOrReplaceRound (completeActive db.rounds) n := by
  have hstart1 : (roundIds emptyDb.rounds).Nodup := by simp [roundIds, emptyDb]
  have hstart2 : activeCount emptyDb.rounds ≤ 1 := by simp [activeCount, emptyDb]
  refine ⟨(runRounds_invariant calls emptyDb hstart1 hstart2).2, ?_, ?_,
          fun db n cfg => rfl⟩
  · intro h
    subst h
    simp [runRounds, activeCount, emptyDb]
  · intro h
    exact runRounds_exists_success calls emptyDb hstart1 h

end Keybot

namespace Keybot

/-- Claim C3 witness: opening round 1, then round 2, then failing to
reopen round 1 leaves exactly one active row; the empty sequence leaves
zero. -/
theorem openRound_active_invariant_witness :
    activeCount ((runRounds emptyDb [(1, true), (2, true), (1, false)]).rounds) ≤ 1
    ∧ activeCount ((runRounds emptyDb [(1, true), (2, true), (1, false)]).rounds) = 1
    ∧ activeCount ((runRounds emptyDb []).rounds) = 0 :=
  ⟨(openRound_active_invariant [(1, true), (2, true), (1, false)]).1,
   (openRound_active_invariant [(1, true), (2, true), (1, false)]).2.2.1
     ⟨(1, true), by decide, rfl⟩,
   (openRound_active_invariant []).2.1 rfl⟩

end Keybot
